import Mathlib

/-!
Verification of the hex decoding and validation engine of the
IoT-DataFusionSuite repository (`src/services/decoderService.js` and the
decoder controller).

The decoder turns a 24-character hexadecimal string into three IEEE-754
binary32 little-endian values (temperature, humidity, pressure), validates
them against sensor ranges, and rounds them to 4 decimal places.  All JS
numbers that occur in this pipeline are exact dyadic rationals (bytes read
as float32) or exact multiples of 10^-4 (results of `toFixed(4)`), so the
embedding models them exactly: a finite JS number is a pair `num / 2^exp`,
and the rounded results are integers scaled by 10^4, interpreted in ℚ at
the interface.  `NaN` and the infinities are modelled explicitly because
the range validator treats them as violations.
-/

namespace IoTDecoder

instance {ε α : Type} [DecidableEq ε] [DecidableEq α] : DecidableEq (Except ε α) := fun
  | .error a, .error b => decidable_of_iff (a = b) (by simp)
  | .error _, .ok _ => isFalse (by simp)
  | .ok _, .error _ => isFalse (by simp)
  | .ok a, .ok b => decidable_of_iff (a = b) (by simp)

/-- A JS number as it can occur in the decoding pipeline: `NaN`, an
infinity, or a finite value `num / 2^exp` (every value read from a float32
buffer is such a dyadic rational, exactly). -/
inductive JsNum where
  | nan
  | posInf
  | negInf
  | fin (num : ℤ) (exp : ℕ)
deriving DecidableEq

/-- The JS `isNaN(x)` test. -/
def JsNum.isNaNB : JsNum → Bool
  | nan => true
  | _ => false

/-- JS comparison `x < c` against an integer constant (`NaN` compares
false against everything). -/
def JsNum.ltIntB : JsNum → ℤ → Bool
  | nan, _ => false
  | posInf, _ => false
  | negInf, _ => true
  | fin n e, c => decide (n < c * 2 ^ e)

/-- JS comparison `x > c` against an integer constant. -/
def JsNum.gtIntB : JsNum → ℤ → Bool
  | nan, _ => false
  | posInf, _ => true
  | negInf, _ => false
  | fin n e, c => decide (c * 2 ^ e < n)

/-- The exact rational value of a finite JS number (non-finite values are
mapped to 0; the function is only used on finite values). -/
def JsNum.toQ : JsNum → ℚ
  | fin n e => (n : ℚ) / 2 ^ e
  | _ => 0

/-- Build a finite JS number from a sign, a natural magnitude numerator
and a power-of-two denominator exponent. -/
def mkFin (sign : Bool) (m : ℕ) (e : ℕ) : JsNum :=
  .fin (if sign then -(m : ℤ) else (m : ℤ)) e

/-- IEEE-754 binary32 interpretation of a 32-bit word, exactly as
`Buffer.readFloatLE` produces it: sign bit 31, exponent bits 23-30,
fraction bits 0-22; exponent 255 is an infinity (fraction 0) or `NaN`;
exponent 0 is subnormal `±frac / 2^149`; otherwise
`±(2^23 + frac) / 2^(150 - expo)`. -/
def float32OfBits (b : ℕ) : JsNum :=
  let sign := decide (2 ^ 31 ≤ b)
  let expo := b / 2 ^ 23 % 2 ^ 8
  let frac := b % 2 ^ 23
  if expo = 255 then
    if frac = 0 then (if sign then .negInf else .posInf) else .nan
  else if expo = 0 then mkFin sign frac 149
  else if expo ≤ 150 then mkFin sign (2 ^ 23 + frac) (150 - expo)
  else mkFin sign ((2 ^ 23 + frac) * 2 ^ (expo - 150)) 0

/-- Value of a hexadecimal digit character (`[0-9A-Fa-f]`). -/
def hexDigitVal (c : Char) : ℕ :=
  let n := c.toNat
  if 48 ≤ n ∧ n ≤ 57 then n - 48
  else if 65 ≤ n ∧ n ≤ 70 then n - 55
  else if 97 ≤ n ∧ n ≤ 102 then n - 87
  else 0

/-- Character class `[0-9A-Fa-f]` of the format-check regular expression. -/
def isHexDigit (c : Char) : Bool :=
  let n := c.toNat
  decide ((48 ≤ n ∧ n ≤ 57) ∨ (65 ≤ n ∧ n ≤ 70) ∨ (97 ≤ n ∧ n ≤ 102))

/-- The JS whitespace class `\s` (the set stripped by
`hexString.replace(/\s/g, '')`). -/
def jsIsSpace (c : Char) : Bool :=
  let n := c.toNat
  decide (n = 32 ∨ (9 ≤ n ∧ n ≤ 13) ∨ n = 160 ∨ n = 0x1680 ∨
    (0x2000 ≤ n ∧ n ≤ 0x200A) ∨ n = 0x2028 ∨ n = 0x2029 ∨ n = 0x202F ∨
    n = 0x205F ∨ n = 0x3000 ∨ n = 0xFEFF)

/-- Model of `hexString.replace(/\s/g, '')`: the input with every
whitespace character removed. -/
def cleanHexOf (s : String) : String :=
  String.mk (s.data.filter (fun c => !jsIsSpace c))

/-- Model of `Buffer.from(cleanHex, 'hex')`: consecutive pairs of hex
digits become bytes, in encountered order. -/
def bytesOfHex : List Char → List ℕ
  | c1 :: c2 :: rest => (16 * hexDigitVal c1 + hexDigitVal c2) :: bytesOfHex rest
  | _ => []

/-- Model of `buffer.readFloatLE(offset)`: four bytes starting at `offset`,
least-significant byte first, interpreted as an IEEE-754 binary32 value.
(The out-of-bounds default is never reached: the decoder always reads
offsets 0, 4, 8 of a 12-byte buffer.) -/
def readFloatLE (buffer : List ℕ) (offset : ℕ) : JsNum :=
  match buffer.drop offset with
  | b0 :: b1 :: b2 :: b3 :: _ => float32OfBits (b0 + 2 ^ 8 * b1 + 2 ^ 16 * b2 + 2 ^ 24 * b3)
  | _ => .nan

/-- The three sensor fields reported in range-validation error messages. -/
inductive SensorField where
  | temperature
  | humidity
  | pressure
deriving DecidableEq

/-- The error kinds raised by `decodeHexString`: the falsy-input guard
(`Invalid hex string provided`), the format check (`Invalid hexadecimal
format`), the length check (expected vs. actual length), and the range
validator (which lists every violating field). -/
inductive DecodeError where
  | invalidInput
  | invalidFormat
  | invalidLength (expected actual : ℕ)
  | outOfRange (violations : List SensorField)
deriving DecidableEq

/-- Source check `isNaN(temperature) || temperature < -50 || temperature > 85`. -/
def violatesTemperature (t : JsNum) : Bool :=
  t.isNaNB || t.ltIntB (-50) || t.gtIntB 85

/-- Source check `isNaN(humidity) || humidity < 0 || humidity > 100`. -/
def violatesHumidity (h : JsNum) : Bool :=
  h.isNaNB || h.ltIntB 0 || h.gtIntB 100

/-- Source check `isNaN(pressure) || pressure < 300 || pressure > 1200`. -/
def violatesPressure (p : JsNum) : Bool :=
  p.isNaNB || p.ltIntB 300 || p.gtIntB 1200

/-- The `validationErrors` array of `validateSensorValues`: one entry per
violating field, pushed in source order (temperature, humidity,
pressure).  The numeric interpolation of the source messages is
display-only and not modelled. -/
def sensorViolations (t h p : JsNum) : List SensorField :=
  (if violatesTemperature t then [SensorField.temperature] else []) ++
  (if violatesHumidity h then [SensorField.humidity] else []) ++
  (if violatesPressure p then [SensorField.pressure] else [])

/-- Model of `DecoderService.validateSensorValues`: collects all range violations
and fails with a single `OutOfRange` error listing them when the list is
nonempty. -/
def validateSensorValues (t h p : JsNum) : Except DecodeError Unit :=
  if sensorViolations t h p = [] then .ok ()
  else .error (.outOfRange (sensorViolations t h p))

/-- Rounding `parseFloat(x.toFixed(4))` scaled by 10^4: round the finite value
`num / 2^exp` to the nearest multiple of 10^-4, ties away from zero (the
ECMAScript `toFixed` rounds the magnitude, ties picking the larger
digit), returned as an integer number of 10^-4 units. -/
def roundFix4 : JsNum → ℤ
  | .fin n e =>
    if n < 0 then -(((2 * n.natAbs * 10 ^ 4 + 2 ^ e) / 2 ^ (e + 1) : ℕ) : ℤ)
    else (((2 * n.natAbs * 10 ^ 4 + 2 ^ e) / 2 ^ (e + 1) : ℕ) : ℤ)
  | _ => 0

/-- The decoded sensor reading returned by `decodeHexString`. -/
structure DecodedReading where
  temperature : ℚ
  humidity : ℚ
  pressure : ℚ
deriving DecidableEq

/-- Model of `DecoderService.decodeHexString`, fixed-point core: the full pipeline
(falsy guard, whitespace strip, format check, length check, byte
conversion, three little-endian float32 reads at offsets 0/4/8, range
validation, rounding), with the three results as integers scaled by
10^4. -/
def decodeFix4 (hexString : String) : Except DecodeError (ℤ × ℤ × ℤ) :=
  if hexString = "" then .error .invalidInput
  else
    let cleanHex := cleanHexOf hexString
    if cleanHex.length == 0 || !cleanHex.data.all isHexDigit then
      .error .invalidFormat
    else if cleanHex.length ≠ 24 then
      .error (.invalidLength 24 cleanHex.length)
    else
      let buffer := bytesOfHex cleanHex.data
      let temperature := readFloatLE buffer 0
      let humidity := readFloatLE buffer 4
      let pressure := readFloatLE buffer 8
      match validateSensorValues temperature humidity pressure with
      | .error e => .error e
      | .ok _ => .ok (roundFix4 temperature, roundFix4 humidity, roundFix4 pressure)

/-- Interpret a fixed-point ×10^4 integer as a rational number. -/
def fix4ToQ (n : ℤ) : ℚ := (n : ℚ) / 10 ^ 4

/-- Model of `DecoderService.decodeHexString`: the fixed-point core with
the three results read as rational numbers. -/
def decodeHexString (hexString : String) : Except DecodeError DecodedReading :=
  (decodeFix4 hexString).map (fun v => ⟨fix4ToQ v.1, fix4ToQ v.2.1, fix4ToQ v.2.2⟩)

/-- Discriminator that is `true` exactly on the results that failed on input/format/length
grounds (as opposed to succeeding or failing the range validation). -/
def lengthOrFormatFailure {α : Type} : Except DecodeError α → Bool
  | .error .invalidInput => true
  | .error .invalidFormat => true
  | .error (.invalidLength _ _) => true
  | _ => false

/-- A record of the external data set: optional device identifier,
timestamp (in epoch milliseconds, the value of
`new Date(r.timestamp).getTime()`), optional hex payload, and optional
ground-truth sensor values (`undefined` is `none`). -/
structure SourceRecord where
  device : Option String
  timestamp : ℤ
  hexData : Option String
  temperature : Option ℚ
  humidity : Option ℚ
  pressure : Option ℚ
deriving DecidableEq

/-- Truthiness of `record.hexData` (the filter
`response.data.filter(record => record.hexData)`): present and not the
empty string. -/
def hasHexData (r : SourceRecord) : Bool :=
  match r.hexData with
  | some s => decide (s ≠ "")
  | none => false

/-- The hex payload passed to `decodeHexString` (for an absent payload the
falsy guard fires, like on JS `undefined`). -/
def hexOf (r : SourceRecord) : String := r.hexData.getD ""

/-- One element of the batch-decoding output: either the success shape
`{device, timestamp, originalHex, decoded, hexBytes, decodingSuccess:
true}` or the failure shape `{device, timestamp, originalHex, decoded:
null, decodingSuccess: false, error}`. -/
structure DecodedRecordResult where
  device : Option String
  timestamp : ℤ
  originalHex : String
  decoded : Option DecodedReading
  hexBytes : Option ℚ
  decodingSuccess : Bool
  error : Option DecodeError
deriving DecidableEq

/-- Per-record body of the batch decoding map in `fetchAndDecodeData`
(lines 59-90): the `try` branch builds the success shape — note that
`hexBytes` is `record.hexData.length / 2` on the original, unstripped
string — and the `catch` branch builds the failure shape carrying the
error. -/
def decodeRecordResult (record : SourceRecord) : DecodedRecordResult :=
  match decodeHexString (hexOf record) with
  | .ok decoded =>
    ⟨record.device, record.timestamp, hexOf record, some decoded,
      some (((hexOf record).length : ℚ) / 2), true, none⟩
  | .error e =>
    ⟨record.device, record.timestamp, hexOf record, none, none, false, some e⟩

/-- Model of `DecoderService.fetchAndDecodeData` after the external fetch:
filter the records with a truthy `hexData` and decode each one
independently (the per-record `try`/`catch` of the source is the `Except`
match inside `decodeRecordResult`, so one failing record cannot affect any
other). -/
def fetchAndDecodeData (records : List SourceRecord) : List DecodedRecordResult :=
  (records.filter hasHexData).map decodeRecordResult

/-- The candidate predicate of the pairing search (`allData.find(r =>
...)`): same device, all three ground-truth fields defined, and absolute
timestamp difference strictly below 5000 ms. -/
def matchesActual (record r : SourceRecord) : Bool :=
  decide (r.device = record.device) && r.temperature.isSome && r.humidity.isSome &&
    r.pressure.isSome && decide ((r.timestamp - record.timestamp).natAbs < 5000)

/-- The `allData.find(...)` call of `validateDecodingAccuracy`: the first
record of the full data set matching the hex record. -/
def findActualRecord (allData : List SourceRecord) (record : SourceRecord) : Option SourceRecord :=
  allData.find? (matchesActual record)

/-- The pairing loop of `validateDecodingAccuracy` (lines 243-261),
recursing over the records still to visit while searching the full set:
every record with a truthy hex payload that has a matching candidate
contributes one pair; records without a match are skipped silently. -/
def validationPairsAux (allData : List SourceRecord) :
    List SourceRecord → List (SourceRecord × SourceRecord)
  | [] => []
  | record :: rest =>
    if hasHexData record then
      match findActualRecord allData record with
      | some actualRecord => (record, actualRecord) :: validationPairsAux allData rest
      | none => validationPairsAux allData rest
    else validationPairsAux allData rest

/-- The `validationPairs` array of `validateDecodingAccuracy`. -/
def validationPairs (allData : List SourceRecord) : List (SourceRecord × SourceRecord) :=
  validationPairsAux allData allData

/-- The ECMAScript `toFixed(4)` rounding on an exact rational: round to
the nearest multiple of 10^-4, ties away from zero. -/
def roundQ4 (q : ℚ) : ℚ :=
  if q < 0 then -((⌊-q * 10 ^ 4 + 1 / 2⌋ : ℚ) / 10 ^ 4)
  else (⌊q * 10 ^ 4 + 1 / 2⌋ : ℚ) / 10 ^ 4

/-- One element of the validation output (lines 282-308): on success the
decoded and actual values, rounded per-field differences, per-field match
flags (the source field `matches`, a Lean keyword, is `matchFlags` here) and the overall `isAccurate` conjunction; on a decode failure only
the error together with `isAccurate = false`. -/
structure ValidationResult where
  device : Option String
  timestamp : ℤ
  hexData : Option String
  decoded : Option DecodedReading
  actual : Option (ℚ × ℚ × ℚ)
  differences : Option (ℚ × ℚ × ℚ)
  matchFlags : Option (Bool × Bool × Bool)
  isAccurate : Bool
  tolerance : Option ℚ
  error : Option DecodeError

/-- Per-pair body of the validation map in `validateDecodingAccuracy`
(lines 265-310).  The match flags compare the unrounded difference
`decoded - actual` against the tolerance 0.01; the `differences` report
applies `toFixed(4)`.  A record of a pair always carries all three
ground-truth fields; should one be absent, JS `parseFloat(undefined)`
would be `NaN` and every comparison false, which the fallback arm
mirrors. -/
def compareRecords (hexRecord actualRecord : SourceRecord) : ValidationResult :=
  match decodeHexString (hexOf hexRecord) with
  | .error e =>
    ⟨hexRecord.device, hexRecord.timestamp, hexRecord.hexData,
      none, none, none, none, false, none, some e⟩
  | .ok decoded =>
    match actualRecord.temperature, actualRecord.humidity, actualRecord.pressure with
    | some t, some h, some p =>
      let tempMatch := decide (|decoded.temperature - t| ≤ 1 / 100)
      let humidityMatch := decide (|decoded.humidity - h| ≤ 1 / 100)
      let pressureMatch := decide (|decoded.pressure - p| ≤ 1 / 100)
      ⟨hexRecord.device, hexRecord.timestamp, hexRecord.hexData,
        some decoded, some (t, h, p),
        some (roundQ4 (decoded.temperature - t), roundQ4 (decoded.humidity - h),
          roundQ4 (decoded.pressure - p)),
        some (tempMatch, humidityMatch, pressureMatch),
        tempMatch && humidityMatch && pressureMatch, some (1 / 100), none⟩
    | _, _, _ =>
      ⟨hexRecord.device, hexRecord.timestamp, hexRecord.hexData,
        some decoded, none, none, some (false, false, false), false, some (1 / 100), none⟩

/-- The `validationResults` array: every pair compared, independently. -/
def validationResultsOf (allData : List SourceRecord) : List ValidationResult :=
  (validationPairs allData).map (fun pair => compareRecords pair.1 pair.2)

/-- The summary computed by `DecoderController.validateDecoding`:
`accuracyRate = (accurateDecodings.length / validationResults.length) *
100`.  There is no guard for an empty result list: JS evaluates `0 / 0`
to `NaN`, modelled as `none` (then formatted as the string
`"NaN%"`); a nonempty list yields the exact rate. -/
def summarizeValidation (validationResults : List ValidationResult) : Option ℚ :=
  let total := validationResults.length
  let accurateCount := (validationResults.filter (fun r => r.isAccurate)).length
  if total = 0 then none
  else some ((accurateCount : ℚ) / (total : ℚ) * 100)

lemma decodeFix4_golden :
    decodeFix4 "0000e840cdccc7424a3e8044" = .ok (72500, 999000, 10259465) := by decide

lemma decodeHexString_golden :
    decodeHexString "0000e840cdccc7424a3e8044" =
      .ok ⟨7.25, 99.9, 1025.9465⟩ := by
  unfold decodeHexString
  rw [decodeFix4_golden]
  simp only [Except.map, DecodedReading.mk.injEq, fix4ToQ]
  norm_num

lemma roundFix4Nat_close (m e : ℕ) :
    |((((2 * m * 10 ^ 4 + 2 ^ e) / 2 ^ (e + 1) : ℕ) : ℚ)) - (m : ℚ) * 10 ^ 4 / 2 ^ e| ≤ 1 / 2 := by
  have hE : (0 : ℚ) < 2 ^ e := by positivity
  have h1 : ((2 ^ (e + 1) : ℕ) : ℚ) * (((2 * m * 10 ^ 4 + 2 ^ e) / 2 ^ (e + 1) : ℕ) : ℚ) +
      (((2 * m * 10 ^ 4 + 2 ^ e) % 2 ^ (e + 1) : ℕ) : ℚ) = ((2 * m * 10 ^ 4 + 2 ^ e : ℕ) : ℚ) := by
    exact_mod_cast congrArg (Nat.cast (R := ℚ)) (Nat.div_add_mod (2 * m * 10 ^ 4 + 2 ^ e) (2 ^ (e + 1)))
  have hrlt : (((2 * m * 10 ^ 4 + 2 ^ e) % 2 ^ (e + 1) : ℕ) : ℚ) < 2 * 2 ^ e := by
    have h2 := Nat.mod_lt (2 * m * 10 ^ 4 + 2 ^ e) (y := 2 ^ (e + 1)) (by positivity)
    calc (((2 * m * 10 ^ 4 + 2 ^ e) % 2 ^ (e + 1) : ℕ) : ℚ) < ((2 ^ (e + 1) : ℕ) : ℚ) := by
          exact_mod_cast h2
      _ = 2 * 2 ^ e := by push_cast; ring
  have hr0 : (0 : ℚ) ≤ (((2 * m * 10 ^ 4 + 2 ^ e) % 2 ^ (e + 1) : ℕ) : ℚ) := by positivity
  set Q : ℚ := (((2 * m * 10 ^ 4 + 2 ^ e) / 2 ^ (e + 1) : ℕ) : ℚ) with hQ
  set R : ℚ := (((2 * m * 10 ^ 4 + 2 ^ e) % 2 ^ (e + 1) : ℕ) : ℚ) with hR
  have h1' : (2 * 2 ^ e) * Q + R = 2 * (m : ℚ) * 10 ^ 4 + 2 ^ e := by
    have hc1 : ((2 ^ (e + 1) : ℕ) : ℚ) = 2 * 2 ^ e := by push_cast; ring
    have hc2 : ((2 * m * 10 ^ 4 + 2 ^ e : ℕ) : ℚ) = 2 * (m : ℚ) * 10 ^ 4 + 2 ^ e := by
      push_cast; ring
    rw [hc1, hc2] at h1
    exact h1
  have hdiff : Q - (m : ℚ) * 10 ^ 4 / 2 ^ e = (2 ^ e - R) / (2 * 2 ^ e) := by
    field_simp
    linear_combination (2 ^ e : ℚ) * h1'
  rw [hdiff, abs_div, abs_of_pos (show (0 : ℚ) < 2 * 2 ^ e by positivity),
    div_le_iff₀ (show (0 : ℚ) < 2 * 2 ^ e by positivity), abs_le]
  constructor <;> linarith [hrlt, hr0]

lemma roundFix4_close (n : ℤ) (e : ℕ) :
    |((roundFix4 (.fin n e) : ℤ) : ℚ) - (JsNum.fin n e).toQ * 10 ^ 4| ≤ 1 / 2 := by
  have habs := roundFix4Nat_close n.natAbs e
  rw [JsNum.toQ]
  rcases le_or_lt 0 n with hn | hn
  · simp only [roundFix4, if_neg (not_lt.2 hn)]
    have hc : ((n.natAbs : ℕ) : ℚ) = (n : ℚ) := by
      rw [Int.cast_natAbs]; exact_mod_cast abs_of_nonneg hn
    rw [hc] at habs
    rw [Int.cast_natCast]
    have harr : (n : ℚ) / 2 ^ e * 10 ^ 4 = (n : ℚ) * 10 ^ 4 / 2 ^ e := by ring
    rw [harr]
    exact habs
  · simp only [roundFix4, if_pos hn]
    have hc : ((n.natAbs : ℕ) : ℚ) = -(n : ℚ) := by
      rw [Int.cast_natAbs]; exact_mod_cast abs_of_neg hn
    rw [hc] at habs
    rw [Int.cast_neg, Int.cast_natCast]
    rw [show -(((2 * n.natAbs * 10 ^ 4 + 2 ^ e) / 2 ^ (e + 1) : ℕ) : ℚ) - (n : ℚ) / 2 ^ e * 10 ^ 4
        = -((((2 * n.natAbs * 10 ^ 4 + 2 ^ e) / 2 ^ (e + 1) : ℕ) : ℚ) - (-(n : ℚ)) * 10 ^ 4 / 2 ^ e) from by
      ring]
    rw [abs_neg]
    exact habs

lemma roundFix4_range (n : ℤ) (e : ℕ) (lo hi : ℤ)
    (h1 : (lo : ℚ) ≤ (JsNum.fin n e).toQ) (h2 : (JsNum.fin n e).toQ ≤ (hi : ℚ)) :
    (lo : ℚ) ≤ fix4ToQ (roundFix4 (.fin n e)) ∧ fix4ToQ (roundFix4 (.fin n e)) ≤ (hi : ℚ) := by
  have hc := roundFix4_close n e
  rw [abs_le] at hc
  set r : ℤ := roundFix4 (.fin n e) with hrdef
  have hub : (r : ℚ) < ((hi * 10 ^ 4 + 1 : ℤ) : ℚ) := by push_cast; nlinarith [hc.2, h2]
  have hlb : ((lo * 10 ^ 4 - 1 : ℤ) : ℚ) < (r : ℚ) := by push_cast; nlinarith [hc.1, h1]
  have hub' : r ≤ hi * 10 ^ 4 := by
    have h3 : r < hi * 10 ^ 4 + 1 := by exact_mod_cast hub
    omega
  have hlb' : lo * 10 ^ 4 ≤ r := by
    have h3 : lo * 10 ^ 4 - 1 < r := by exact_mod_cast hlb
    omega
  have h104 : (0 : ℚ) < 10 ^ 4 := by norm_num
  constructor
  · rw [fix4ToQ, le_div_iff₀ h104]
    calc (lo : ℚ) * 10 ^ 4 = ((lo * 10 ^ 4 : ℤ) : ℚ) := by push_cast; ring
      _ ≤ (r : ℚ) := by exact_mod_cast hlb'
  · rw [fix4ToQ, div_le_iff₀ h104]
    calc (r : ℚ) ≤ ((hi * 10 ^ 4 : ℤ) : ℚ) := by exact_mod_cast hub'
      _ = (hi : ℚ) * 10 ^ 4 := by push_cast; ring

lemma notViolates_fin {x : JsNum} {lo hi : ℤ}
    (h : (x.isNaNB || x.ltIntB lo || x.gtIntB hi) = false) :
    ∃ n e, x = .fin n e ∧ (lo : ℚ) ≤ x.toQ ∧ x.toQ ≤ (hi : ℚ) := by
  cases x with
  | nan => simp [JsNum.isNaNB] at h
  | posInf => simp [JsNum.isNaNB, JsNum.ltIntB, JsNum.gtIntB] at h
  | negInf => simp [JsNum.isNaNB, JsNum.ltIntB, JsNum.gtIntB] at h
  | fin n e =>
    simp only [JsNum.isNaNB, JsNum.ltIntB, JsNum.gtIntB, Bool.or_eq_false_iff,
      decide_eq_false_iff_not, not_lt] at h
    obtain ⟨⟨-, hlo⟩, hhi⟩ := h
    have hE : (0 : ℚ) < 2 ^ e := by positivity
    refine ⟨n, e, rfl, ?_, ?_⟩
    · rw [JsNum.toQ, le_div_iff₀ hE]
      calc (lo : ℚ) * 2 ^ e = ((lo * 2 ^ e : ℤ) : ℚ) := by push_cast; ring
        _ ≤ (n : ℚ) := by exact_mod_cast hlo
    · rw [JsNum.toQ, div_le_iff₀ hE]
      calc (n : ℚ) ≤ ((hi * 2 ^ e : ℤ) : ℚ) := by exact_mod_cast hhi
        _ = (hi : ℚ) * 2 ^ e := by push_cast; ring

lemma sensorViolations_nil_iff (t h p : JsNum) :
    sensorViolations t h p = [] ↔
      violatesTemperature t = false ∧ violatesHumidity h = false ∧ violatesPressure p = false := by
  unfold sensorViolations
  cases ht : violatesTemperature t <;> cases hh : violatesHumidity h <;>
    cases hp : violatesPressure p <;> simp

lemma decodeFix4_ok_inv {s : String} {v : ℤ × ℤ × ℤ} (h : decodeFix4 s = .ok v) :
    sensorViolations (readFloatLE (bytesOfHex (cleanHexOf s).data) 0)
        (readFloatLE (bytesOfHex (cleanHexOf s).data) 4)
        (readFloatLE (bytesOfHex (cleanHexOf s).data) 8) = [] ∧
      v = (roundFix4 (readFloatLE (bytesOfHex (cleanHexOf s).data) 0),
        roundFix4 (readFloatLE (bytesOfHex (cleanHexOf s).data) 4),
        roundFix4 (readFloatLE (bytesOfHex (cleanHexOf s).data) 8)) := by
  simp only [decodeFix4] at h
  split at h
  · simp at h
  · split at h
    · simp at h
    · split at h
      · simp at h
      · split at h
        · simp at h
        · rename_i u heq
          unfold validateSensorValues at heq
          split at heq
          · rename_i hnil
            refine ⟨hnil, ?_⟩
            exact (Except.ok.injEq _ _).mp h.symm
          · simp at heq

/-- C1: for the literal input `0000e840cdccc7424a3e8044`, `decodeHexString`
succeeds and returns exactly temperature 7.25, humidity 99.9 and pressure
1025.9465 — the IEEE-754 binary32 little-endian readings at byte offsets
0, 4 and 8 of the 12-byte payload, rounded to 4 decimal places. -/
theorem golden_vector_decodes :
    decodeHexString "0000e840cdccc7424a3e8044" = .ok ⟨7.25, 99.9, 1025.9465⟩ :=
  decodeHexString_golden

/-- C2 (amended): when the whitespace-stripped input is nonempty and made
of hex digits only, a stripped length other than 24 fails with the
`InvalidLength` error reporting expected 24 versus the actual stripped
length, and a stripped length of exactly 24 never fails on
input/format/length grounds.  (Inputs with non-hex characters fail the
earlier format check instead, whatever their length.) -/
theorem length_invariant_hexOnly (s : String)
    (hne : (cleanHexOf s).length ≠ 0)
    (hhex : (cleanHexOf s).data.all isHexDigit = true) :
    ((cleanHexOf s).length ≠ 24 →
      decodeHexString s = .error (.invalidLength 24 (cleanHexOf s).length)) ∧
    ((cleanHexOf s).length = 24 →
      lengthOrFormatFailure (decodeHexString s) = false) := by
  have hs : s ≠ "" := by
    intro hs0
    apply hne
    rw [hs0]
    rfl
  have hfmt : ((cleanHexOf s).length == 0 || !(cleanHexOf s).data.all isHexDigit) = false := by
    simp [hhex, hne]
  constructor
  · intro hlen
    unfold decodeHexString decodeFix4
    rw [if_neg hs]
    simp only [hfmt, Bool.false_eq_true, if_false, if_pos hlen]
    rfl
  · intro hlen
    unfold decodeHexString decodeFix4
    rw [if_neg hs]
    simp only [hfmt, Bool.false_eq_true, if_false]
    rw [if_neg (show ¬(cleanHexOf s).length ≠ 24 from fun hc => hc hlen)]
    cases hval : validateSensorValues (readFloatLE (bytesOfHex (cleanHexOf s).data) 0)
        (readFloatLE (bytesOfHex (cleanHexOf s).data) 4)
        (readFloatLE (bytesOfHex (cleanHexOf s).data) 8) with
    | error e =>
      have he : e = .outOfRange (sensorViolations (readFloatLE (bytesOfHex (cleanHexOf s).data) 0)
          (readFloatLE (bytesOfHex (cleanHexOf s).data) 4)
          (readFloatLE (bytesOfHex (cleanHexOf s).data) 8)) := by
        unfold validateSensorValues at hval
        split at hval
        · simp at hval
        · exact ((Except.error.injEq _ _).mp hval).symm
      simp only [hval, he, Except.map, lengthOrFormatFailure]
    | ok u =>
      simp only [hval, Except.map, lengthOrFormatFailure]

/-- C2, counterexample to the claim as stated: the stripped form of
`"zz"` has length 2 ≠ 24, yet the decoder fails with the format error,
not the length error — the format check runs first. -/
theorem length_invariant_cex :
    (cleanHexOf "zz").length = 2 ∧
    decodeHexString "zz" = .error .invalidFormat := by
  constructor
  · decide
  · unfold decodeHexString
    rw [show decodeFix4 "zz" = .error .invalidFormat from by decide]
    rfl

/-- C2, witness: a 22-digit hex input fails with `InvalidLength 24 22`,
and the 24-digit golden input does not fail on length or format
grounds. -/
theorem length_invariant_hexOnly_witness :
    decodeHexString "0000e840cdccc7424a3e80" = .error (.invalidLength 24 22) ∧
    lengthOrFormatFailure (decodeHexString "0000e840cdccc7424a3e8044") = false := by
  constructor
  · have h := (length_invariant_hexOnly "0000e840cdccc7424a3e80" (by decide) (by decide)).1
      (by decide)
    rw [h]
    rw [show (cleanHexOf "0000e840cdccc7424a3e80").length = 22 from by decide]
  · exact (length_invariant_hexOnly "0000e840cdccc7424a3e8044" (by decide) (by decide)).2
      (by decide)

/-- C4: `validateSensorValues` fails if and only if at least one field
violates its range (with `NaN` and infinities counting as violations),
and its single `OutOfRange` failure lists exactly the violating fields —
all of them, not just the first. -/
theorem validateSensorValues_collects_all (t h p : JsNum) :
    (validateSensorValues t h p = .error (.outOfRange (sensorViolations t h p)) ↔
      (violatesTemperature t || violatesHumidity h || violatesPressure p) = true) ∧
    (validateSensorValues t h p = .ok () ↔
      (violatesTemperature t || violatesHumidity h || violatesPressure p) = false) ∧
    (SensorField.temperature ∈ sensorViolations t h p ↔ violatesTemperature t = true) ∧
    (SensorField.humidity ∈ sensorViolations t h p ↔ violatesHumidity h = true) ∧
    (SensorField.pressure ∈ sensorViolations t h p ↔ violatesPressure p = true) := by
  unfold validateSensorValues sensorViolations
  cases ht : violatesTemperature t <;> cases hh : violatesHumidity h <;>
    cases hp : violatesPressure p <;> simp

/-- C4, witness: the spec's range-rejection example — temperature 200,
humidity -5, pressure 50 — produces one failure listing all three
fields. -/
theorem validateSensorValues_collects_all_witness :
    SensorField.temperature ∈ sensorViolations (.fin 200 0) (.fin (-5) 0) (.fin 50 0) ∧
    SensorField.humidity ∈ sensorViolations (.fin 200 0) (.fin (-5) 0) (.fin 50 0) ∧
    SensorField.pressure ∈ sensorViolations (.fin 200 0) (.fin (-5) 0) (.fin 50 0) ∧
    validateSensorValues (.fin 200 0) (.fin (-5) 0) (.fin 50 0) =
      .error (.outOfRange [.temperature, .humidity, .pressure]) := by
  refine ⟨?_, ?_, ?_, by decide⟩
  · exact (validateSensorValues_collects_all _ _ _).2.2.1.mpr (by decide)
  · exact (validateSensorValues_collects_all _ _ _).2.2.2.1.mpr (by decide)
  · exact (validateSensorValues_collects_all _ _ _).2.2.2.2.mpr (by decide)

/-- C5: whenever `decodeHexString` succeeds, the three returned (rounded)
values lie within the inclusive sensor ranges — temperature in [-50, 85],
humidity in [0, 100], pressure in [300, 1200]; out-of-range or non-finite
readings always fail instead of being clamped. -/
theorem decoded_values_in_range (s : String) (r : DecodedReading)
    (h : decodeHexString s = .ok r) :
    ((-50 : ℚ) ≤ r.temperature ∧ r.temperature ≤ 85) ∧
    ((0 : ℚ) ≤ r.humidity ∧ r.humidity ≤ 100) ∧
    ((300 : ℚ) ≤ r.pressure ∧ r.pressure ≤ 1200) := by
  unfold decodeHexString at h
  cases hv : decodeFix4 s with
  | error e => rw [hv] at h; simp [Except.map] at h
  | ok v =>
    rw [hv] at h
    simp only [Except.map] at h
    have h' : (⟨fix4ToQ v.1, fix4ToQ v.2.1, fix4ToQ v.2.2⟩ : DecodedReading) = r :=
      (Except.ok.injEq _ _).mp h
    obtain ⟨hviol, hv3⟩ := decodeFix4_ok_inv hv
    rw [sensorViolations_nil_iff] at hviol
    obtain ⟨hT, hH, hP⟩ := hviol
    simp only [violatesTemperature] at hT
    simp only [violatesHumidity] at hH
    simp only [violatesPressure] at hP
    obtain ⟨nt, et, hxt, ht1, ht2⟩ := notViolates_fin hT
    obtain ⟨nh, eh, hxh, hh1, hh2⟩ := notViolates_fin hH
    obtain ⟨np, ep, hxp, hp1, hp2⟩ := notViolates_fin hP
    rw [hxt] at ht1 ht2
    rw [hxh] at hh1 hh2
    rw [hxp] at hp1 hp2
    have e1 : r.temperature = fix4ToQ (roundFix4 (.fin nt et)) := by
      rw [← h', hv3, hxt]
    have e2 : r.humidity = fix4ToQ (roundFix4 (.fin nh eh)) := by
      rw [← h', hv3, hxh]
    have e3 : r.pressure = fix4ToQ (roundFix4 (.fin np ep)) := by
      rw [← h', hv3, hxp]
    rw [e1, e2, e3]
    have b1 := roundFix4_range nt et (-50) 85 ht1 ht2
    have b2 := roundFix4_range nh eh 0 100 hh1 hh2
    have b3 := roundFix4_range np ep 300 1200 hp1 hp2
    refine ⟨⟨?_, ?_⟩, ⟨?_, ?_⟩, ⟨?_, ?_⟩⟩
    · exact_mod_cast b1.1
    · exact_mod_cast b1.2
    · exact_mod_cast b2.1
    · exact_mod_cast b2.2
    · exact_mod_cast b3.1
    · exact_mod_cast b3.2

/-- C5, witness: the golden vector's decoded values satisfy all three
range bounds. -/
theorem decoded_values_in_range_witness :
    ((-50 : ℚ) ≤ (7.25 : ℚ) ∧ (7.25 : ℚ) ≤ 85) ∧
    ((0 : ℚ) ≤ (99.9 : ℚ) ∧ (99.9 : ℚ) ≤ 100) ∧
    ((300 : ℚ) ≤ (1025.9465 : ℚ) ∧ (1025.9465 : ℚ) ≤ 1200) :=
  decoded_values_in_range "0000e840cdccc7424a3e8044" ⟨7.25, 99.9, 1025.9465⟩
    decodeHexString_golden


lemma mem_validationPairsAux {allData : List SourceRecord} :
    ∀ {l : List SourceRecord} {q : SourceRecord × SourceRecord},
      q ∈ validationPairsAux allData l →
      hasHexData q.1 = true ∧ findActualRecord allData q.1 = some q.2 := by
  intro l
  induction l with
  | nil => intro q hq; simp [validationPairsAux] at hq
  | cons record rest ih =>
    intro q hq
    unfold validationPairsAux at hq
    split at hq
    · rename_i hhex
      split at hq
      · rename_i a heq
        rcases List.mem_cons.mp hq with hq1 | hq2
        · rw [hq1]
          exact ⟨hhex, heq⟩
        · exact ih hq2
      · exact ih hq
    · exact ih hq

/-- C6: the pairing search scans the full record set with the predicate
"same device, all three ground-truth fields defined, timestamps strictly
less than 5000 ms apart"; the first matching candidate wins, and a hex
record with no match contributes no pair (and no error). -/
theorem pairing_first_match_in_window (allData : List SourceRecord) (record : SourceRecord) :
    (∀ a, findActualRecord allData record = some a →
      matchesActual record a = true ∧
      ∃ pre post, allData = pre ++ a :: post ∧ ∀ b ∈ pre, matchesActual record b = false) ∧
    (findActualRecord allData record = none →
      ∀ q ∈ validationPairs allData, q.1 ≠ record) ∧
    (∀ a, matchesActual record a = true ↔
      (a.device = record.device ∧ a.temperature.isSome = true ∧ a.humidity.isSome = true ∧
        a.pressure.isSome = true ∧ (a.timestamp - record.timestamp).natAbs < 5000)) := by
  refine ⟨?_, ?_, ?_⟩
  · intro a ha
    obtain ⟨hpa, pre, post, hsplit, hall⟩ := List.find?_eq_some.mp ha
    refine ⟨hpa, pre, post, hsplit, fun b hb => ?_⟩
    have := hall b hb
    simpa using this
  · intro hnone q hq hq1
    obtain ⟨-, hfind⟩ := mem_validationPairsAux hq
    rw [hq1, hnone] at hfind
    cases hfind
  · intro a
    simp [matchesActual, and_assoc]

/-- C10 (amended): the pairing search never excludes the hex record
itself — a record carrying all three ground-truth fields always matches
itself (timestamp difference 0 ms), so if it occurs in the data set the
search always finds some candidate, and it pairs with itself exactly when
no earlier record in the set matches. -/
theorem self_pairing_when_first (allData pre post : List SourceRecord) (record : SourceRecord)
    (ht : record.temperature.isSome = true) (hh : record.humidity.isSome = true)
    (hp : record.pressure.isSome = true) :
    matchesActual record record = true ∧
    (record ∈ allData → ∃ a, findActualRecord allData record = some a) ∧
    (allData = pre ++ record :: post → (∀ b ∈ pre, matchesActual record b = false) →
      findActualRecord allData record = some record) := by
  have hself : matchesActual record record = true := by
    simp only [matchesActual, ht, hh, hp, sub_self, Int.natAbs_zero]
    simp
  refine ⟨hself, ?_, ?_⟩
  · intro hmem
    have hsome : (allData.find? (matchesActual record)).isSome :=
      List.find?_isSome.mpr ⟨record, hmem, hself⟩
    obtain ⟨a, ha⟩ := Option.isSome_iff_exists.mp hsome
    exact ⟨a, ha⟩
  · intro hsplit hpre
    rw [findActualRecord, hsplit, List.find?_append]
    have hnone : pre.find? (matchesActual record) = none :=
      List.find?_eq_none.mpr (fun x hx => by rw [hpre x hx]; simp)
    rw [hnone, List.find?_cons_of_pos _ hself]
    rfl

/-- Witness data: a hex record and two ground-truth candidates of the
same device, 4999 ms and 5001 ms away. -/
def hexRecordW : SourceRecord :=
  ⟨some "sigfox-1", 10000, some "0000e840cdccc7424a3e8044", none, none, none⟩

/-- Ground-truth record 4999 ms after `hexRecordW` (inside the window). -/
def groundW4999 : SourceRecord := ⟨some "sigfox-1", 14999, none, some 7, some 99, some 1025⟩

/-- Ground-truth record 5001 ms after `hexRecordW` (outside the window). -/
def groundW5001 : SourceRecord := ⟨some "sigfox-1", 15001, none, some 7, some 99, some 1025⟩

/-- C6, witness: 4999 ms apart pairs, 5001 ms apart does not, and the
search returns the matching candidate. -/
theorem pairing_first_match_in_window_witness :
    matchesActual hexRecordW groundW4999 = true ∧
    matchesActual hexRecordW groundW5001 = false ∧
    findActualRecord [groundW5001, groundW4999] hexRecordW = some groundW4999 := by
  refine ⟨?_, by decide, by decide⟩
  exact ((pairing_first_match_in_window [] hexRecordW).2.2 groundW4999).mpr (by decide)

/-- Witness record that carries both a hex payload and all three
ground-truth fields. -/
def selfRecW : SourceRecord :=
  ⟨some "sigfox-2", 42, some "0000e840cdccc7424a3e8044", some 7, some 99, some 1025⟩

/-- C10, witness: alone in the data set, such a record pairs with
itself. -/
theorem self_pairing_when_first_witness :
    findActualRecord [selfRecW] selfRecW = some selfRecW :=
  (self_pairing_when_first [selfRecW] [] [] selfRecW (by decide) (by decide)
    (by decide)).2.2 rfl (by simp)

/-- A ground-truth record placed before `selfHexW` in the data set. -/
def earlierGroundW : SourceRecord := ⟨some "sigfox-2", 0, none, some 7, some 99, some 1025⟩

/-- A record with hex payload and all ground-truth fields, 1000 ms after
`earlierGroundW`. -/
def selfHexW : SourceRecord :=
  ⟨some "sigfox-2", 1000, some "0000e840cdccc7424a3e8044", some 7, some 99, some 1025⟩

/-- C10, counterexample to the claim as stated: `selfHexW` carries a hex
payload and all three ground-truth fields, yet in the presence of the
earlier in-window record `earlierGroundW` the search pairs it with that
record, not with itself. -/
theorem self_pairing_cex :
    hasHexData selfHexW = true ∧ selfHexW.temperature.isSome = true ∧
    selfHexW.humidity.isSome = true ∧ selfHexW.pressure.isSome = true ∧
    findActualRecord [earlierGroundW, selfHexW] selfHexW = some earlierGroundW ∧
    earlierGroundW ≠ selfHexW := by decide

/-- C7: for a pair whose hex side decodes successfully, the per-field
match flags are exactly the comparisons of the unrounded difference
`decoded - actual` against the fixed tolerance 0.01 (so a difference of
exactly 0.01 matches and 0.0101 does not), the reported differences are
the `toFixed(4)` roundings of those differences, and `isAccurate` is the
conjunction of the three per-field matches. -/
theorem compare_uses_tolerance (hexRecord actualRecord : SourceRecord) (d : DecodedReading)
    (t h p : ℚ)
    (hd : decodeHexString (hexOf hexRecord) = .ok d)
    (ht : actualRecord.temperature = some t) (hh : actualRecord.humidity = some h)
    (hp : actualRecord.pressure = some p) :
    (compareRecords hexRecord actualRecord).matchFlags =
      some (decide (|d.temperature - t| ≤ 1 / 100), decide (|d.humidity - h| ≤ 1 / 100),
        decide (|d.pressure - p| ≤ 1 / 100)) ∧
    (compareRecords hexRecord actualRecord).differences =
      some (roundQ4 (d.temperature - t), roundQ4 (d.humidity - h), roundQ4 (d.pressure - p)) ∧
    (compareRecords hexRecord actualRecord).isAccurate =
      (decide (|d.temperature - t| ≤ 1 / 100) && decide (|d.humidity - h| ≤ 1 / 100) &&
        decide (|d.pressure - p| ≤ 1 / 100)) := by
  unfold compareRecords
  rw [hd, ht, hh, hp]
  exact ⟨rfl, rfl, rfl⟩

/-- Hex side of the tolerance-boundary witness pair. -/
def wCmpHex : SourceRecord :=
  ⟨some "sigfox-6", 0, some "0000e840cdccc7424a3e8044", none, none, none⟩

/-- Ground-truth side of the tolerance-boundary witness pair: temperature
7.24 (difference exactly 0.01), humidity 99.8899 (difference 0.0101),
pressure equal to the decoded value. -/
def wCmpActual : SourceRecord :=
  ⟨some "sigfox-6", 0, none, some (181 / 25), some (998899 / 10000), some (2051893 / 2000)⟩

/-- C7, witness: difference exactly 0.01 counts as a match, 0.0101 does
not, and `isAccurate` is the conjunction (here false). -/
theorem compare_uses_tolerance_witness :
    (compareRecords wCmpHex wCmpActual).matchFlags = some (true, false, true) ∧
    (compareRecords wCmpHex wCmpActual).isAccurate = false := by
  have hc := compare_uses_tolerance wCmpHex wCmpActual ⟨7.25, 99.9, 1025.9465⟩
    (181 / 25) (998899 / 10000) (2051893 / 2000) decodeHexString_golden rfl rfl rfl
  have d1 : decide (|(7.25 : ℚ) - 181 / 25| ≤ 1 / 100) = true := by
    rw [decide_eq_true_eq, show (7.25 : ℚ) - 181 / 25 = 1 / 100 from by norm_num,
      abs_of_nonneg (by norm_num : (0 : ℚ) ≤ 1 / 100)]
  have d2 : decide (|(99.9 : ℚ) - 998899 / 10000| ≤ 1 / 100) = false := by
    rw [decide_eq_false_iff_not,
      show (99.9 : ℚ) - 998899 / 10000 = 101 / 10000 from by norm_num,
      abs_of_nonneg (by norm_num : (0 : ℚ) ≤ 101 / 10000)]
    norm_num
  have d3 : decide (|(1025.9465 : ℚ) - 2051893 / 2000| ≤ 1 / 100) = true := by
    rw [decide_eq_true_eq, show (1025.9465 : ℚ) - 2051893 / 2000 = 0 from by norm_num,
      abs_zero]
    norm_num
  constructor
  · rw [hc.1]
    simp only [d1, d2, d3]
  · rw [hc.2.2]
    simp only [d1, d2, d3]
    rfl

/-- C8: batch operations isolate per-item failures — every record with a
hex payload yields exactly one result, a record whose decode fails yields
the failure shape (decoded null, `decodingSuccess` false, the error
message) without affecting any other record's result, a record whose
decode succeeds yields the success shape, and on the validation side a
pair whose decode fails yields a result carrying the error with
`isAccurate = false` while the batch keeps one result per pair. -/
theorem batch_isolates_failures (records : List SourceRecord) :
    (fetchAndDecodeData records).length = (records.filter hasHexData).length ∧
    (∀ r ∈ records, hasHexData r = true → decodeRecordResult r ∈ fetchAndDecodeData records) ∧
    (∀ r : SourceRecord, ∀ e, decodeHexString (hexOf r) = .error e →
      decodeRecordResult r = ⟨r.device, r.timestamp, hexOf r, none, none, false, some e⟩) ∧
    (∀ r : SourceRecord, ∀ d, decodeHexString (hexOf r) = .ok d →
      decodeRecordResult r =
        ⟨r.device, r.timestamp, hexOf r, some d, some (((hexOf r).length : ℚ) / 2), true, none⟩) ∧
    (∀ allData : List SourceRecord,
      (validationResultsOf allData).length = (validationPairs allData).length) ∧
    (∀ hexRecord actualRecord : SourceRecord, ∀ e,
      decodeHexString (hexOf hexRecord) = .error e →
      compareRecords hexRecord actualRecord =
        ⟨hexRecord.device, hexRecord.timestamp, hexRecord.hexData,
          none, none, none, none, false, none, some e⟩) := by
  refine ⟨?_, ?_, ?_, ?_, ?_, ?_⟩
  · simp [fetchAndDecodeData]
  · intro r hr hhex
    exact List.mem_map_of_mem _ (List.mem_filter.mpr ⟨hr, hhex⟩)
  · intro r e he
    unfold decodeRecordResult
    rw [he]
  · intro r d hd
    unfold decodeRecordResult
    rw [hd]
  · intro allData
    simp [validationResultsOf]
  · intro hexRecord actualRecord e he
    unfold compareRecords
    rw [he]

/-- Batch witness: a record whose payload is not hexadecimal. -/
def wBadRec : SourceRecord := ⟨some "sigfox-3", 0, some "zz", none, none, none⟩

/-- Batch witness: a record with the golden payload. -/
def wGoodRec : SourceRecord :=
  ⟨some "sigfox-3", 0, some "0000e840cdccc7424a3e8044", none, none, none⟩

/-- C8, witness: in a batch containing a good and a bad record, the bad
record yields the failure shape while the good record still contributes
its decoded result. -/
theorem batch_isolates_failures_witness :
    decodeRecordResult wBadRec =
      ⟨some "sigfox-3", 0, "zz", none, none, false, some .invalidFormat⟩ ∧
    decodeRecordResult wGoodRec ∈ fetchAndDecodeData [wGoodRec, wBadRec] := by
  constructor
  · exact (batch_isolates_failures []).2.2.1 wBadRec .invalidFormat (by decide)
  · exact (batch_isolates_failures [wGoodRec, wBadRec]).2.1 wGoodRec (by simp) (by decide)

/-- A record whose hex payload contains an embedded space (25 characters
before stripping, 24 hex digits after). -/
def wsHexRec : SourceRecord :=
  ⟨some "sigfox-4", 0, some "0000e840 cdccc7424a3e8044", none, none, none⟩

/-- C9: the per-record `hexBytes` field is computed from the original,
unstripped string (`record.hexData.length / 2`), so a successfully
decoded payload with an embedded space reports 12.5, not 12. -/
theorem hexBytes_fractional_on_whitespace :
    (decodeRecordResult wsHexRec).decodingSuccess = true ∧
    (decodeRecordResult wsHexRec).hexBytes = some ((25 : ℚ) / 2) ∧
    ((25 : ℚ) / 2) ≠ 12 := by
  have hok : decodeFix4 "0000e840 cdccc7424a3e8044" = .ok (72500, 999000, 10259465) := by
    decide
  have hdec : decodeHexString (hexOf wsHexRec) =
      .ok ⟨fix4ToQ 72500, fix4ToQ 999000, fix4ToQ 10259465⟩ := by
    show decodeHexString "0000e840 cdccc7424a3e8044" = _
    unfold decodeHexString
    rw [hok]
    rfl
  refine ⟨?_, ?_, by norm_num⟩
  · unfold decodeRecordResult
    rw [hdec]
  · unfold decodeRecordResult
    rw [hdec]
    rw [show (hexOf wsHexRec).length = 25 from by decide]
    norm_num

/-- C3: the controller's summary guards nothing — an empty validation
result list makes `accuracyRate` the JS value `NaN` (modelled as `none`),
while a nonempty list yields exactly `accurateCount / total * 100`. -/
theorem summarize_nan_on_empty :
    summarizeValidation [] = none ∧
    (∀ validationResults : List ValidationResult, validationResults ≠ [] →
      summarizeValidation validationResults =
        some ((((validationResults.filter (fun r => r.isAccurate)).length : ℚ) /
          (validationResults.length : ℚ)) * 100)) := by
  constructor
  · rfl
  · intro results hne
    unfold summarizeValidation
    rw [if_neg (fun h0 => hne (List.length_eq_zero.mp h0))]

/-- An accurate validation result used by the summary witness. -/
def wAccResult : ValidationResult :=
  ⟨some "sigfox-5", 0, some "0000e840cdccc7424a3e8044", none, none, none, none, true,
    none, none⟩

/-- C3, witness: a singleton list of one accurate result summarizes to
exactly 100. -/
theorem summarize_nan_on_empty_witness :
    summarizeValidation [wAccResult] = some 100 := by
  have h := summarize_nan_on_empty.2 [wAccResult] (by simp)
  rw [h]
  have hf : ([wAccResult].filter (fun r => r.isAccurate)) = [wAccResult] := rfl
  rw [hf]
  norm_num

end IoTDecoder
